import Mathlib

/-!
Shallow embedding of `src/main.py` (yudojun/dojun_db), a small client that
keeps a local SQLite issues database synchronised with a remote one and
filters the loaded rows.  Python strings are embedded as `List Char`,
raised exceptions as `Except.error`, and the files touched by the update
sequence as explicit state records.
-/

/-- A Python string, as a list of characters. -/
abbrev Str := List Char

/-- Raw file bytes, for the downloaded database blob. -/
abbrev Bytes := List Nat

/-- Whitespace as stripped by Python's `str.strip()` (the ASCII cases). -/
def isWS (c : Char) : Bool :=
  c == ' ' || c == '\t' || c == '\n' || c == '\r' ||
  c == Char.ofNat 11 || c == Char.ofNat 12

/-- Drop leading whitespace characters. -/
def dropLeadWS : Str → Str
  | [] => []
  | c :: t => if isWS c then dropLeadWS t else c :: t

/-- Python's `s.strip()`: drop leading whitespace, then trailing whitespace. -/
def pyStrip (s : Str) : Str :=
  (dropLeadWS (dropLeadWS s).reverse).reverse

/-- Does the first list occur at the head of the second one? -/
def strLeads : Str → Str → Bool
  | [], _ => true
  | _ :: _, [] => false
  | a :: as, b :: bs => a == b && strLeads as bs

/-- Python's `needle in hay` on strings: substring occurrence. -/
def pyIn : Str → Str → Bool
  | n, [] => n.isEmpty
  | n, c :: t => strLeads n (c :: t) || pyIn n t

/-- One row of the `issues` table: `SELECT title, summary, company, union_opt`. -/
structure Row where
  title : Str
  summary : Str
  company : Str
  union_opt : Str
deriving DecidableEq, Repr

/-- The tab string "전체" (all). -/
def tabAll : Str := ['전', '체']

/-- The tab string "회사안" (company position). -/
def tabCompany : Str := ['회', '사', '안']

/-- The tab string "조합안" (union position). -/
def tabUnion : Str := ['조', '합', '안']

/-- Content of `local_version.json` when the file exists: either text that
`json.load` rejects (raising), or a JSON object whose `"version"` key may be
absent (then `.get("version", 0)` yields 0). -/
inductive VFile where
  | invalid : VFile
  | obj : Option Int → VFile
deriving DecidableEq, Repr

/-- The remote manifest JSON object; a `none` field models a missing key,
on which the subscript `remote[...]` raises `KeyError`. -/
structure Manifest where
  version : Option Int
  url : Option Str
deriving DecidableEq, Repr

/-- Outcome of the HTTP GET in `get_remote_info`: a manifest, or a raised
exception (network failure, bad status, or unparsable body). -/
inductive Fetch where
  | ok : Manifest → Fetch
  | fail : Fetch
deriving DecidableEq, Repr

/-- Outcome of the HTTP GET in `download_db`.  `failEarly`: the request or
`raise_for_status` raises before the local file is opened.  `stream chunks ok`:
the local file is opened for writing and `chunks` are written; if `ok` is
false, `iter_content` then raises, leaving the partial content on disk. -/
inductive DLResult where
  | failEarly : DLResult
  | stream : List Bytes → Bool → DLResult
deriving DecidableEq, Repr

/-- The state the update sequence reads and writes: the two local files,
plus the predetermined outcomes of the two network calls and of the final
version-file write (`writeFail` models `json.dump` raising mid-write). -/
structure World where
  versionFile : Option VFile
  dbFile : Option Bytes
  fetchResult : Fetch
  dlResult : DLResult
  writeFail : Bool
deriving DecidableEq, Repr

/-- Replace the local version file's content. -/
def setVF (w : World) (v : Option VFile) : World :=
  ⟨v, w.dbFile, w.fetchResult, w.dlResult, w.writeFail⟩

/-- Replace the local database file's content. -/
def setDB (w : World) (d : Option Bytes) : World :=
  ⟨w.versionFile, d, w.fetchResult, w.dlResult, w.writeFail⟩

/-- `get_local_version`: 0 when the file does not exist, otherwise
`json.load(f).get("version", 0)`; unparsable content makes `json.load`
raise, which this function does not catch. -/
def get_local_version (w : World) : Except Unit Int :=
  match w.versionFile with
  | none => Except.ok 0
  | some VFile.invalid => Except.error ()
  | some (VFile.obj none) => Except.ok 0
  | some (VFile.obj (some v)) => Except.ok v

/-- `get_remote_info`: GET the manifest URL and parse the JSON body;
any failure raises. -/
def get_remote_info (w : World) : Except Unit Manifest :=
  match w.fetchResult with
  | Fetch.ok m => Except.ok m
  | Fetch.fail => Except.error ()

/-- `download_db`: streamed GET written chunk by chunk over the local
database file.  Returns the state after the call and whether it returned
normally (`false` means it raised). -/
def download_db (w : World) : World × Bool :=
  match w.dlResult with
  | DLResult.failEarly => (w, false)
  | DLResult.stream chunks ok => (setDB w (some chunks.flatten), ok)

/-- `update_db_if_needed`: read local version, fetch the manifest, take its
`version` and `url` fields, download and persist when the remote version is
strictly greater; one blanket `except Exception` maps every raise to
`"error"`. -/
def update_db_if_needed (w : World) : String × World :=
  match get_local_version w with
  | Except.error _ => ("error", w)
  | Except.ok local_version =>
    match get_remote_info w with
    | Except.error _ => ("error", w)
    | Except.ok remote =>
      match remote.version with
      | none => ("error", w)
      | some remote_version =>
        match remote.url with
        | none => ("error", w)
        | some _ =>
          if remote_version > local_version then
            match download_db w with
            | (w2, false) => ("error", w2)
            | (w2, true) =>
              if w.writeFail then ("error", setVF w2 (some VFile.invalid))
              else ("updated", setVF w2 (some (VFile.obj (some remote_version))))
          else ("latest", w)

/-- The local database file as the query layer sees it: `none` when the
file is missing (then `SELECT ... FROM issues` raises, since
`sqlite3.connect` creates an empty database with no `issues` table),
otherwise the rows of the `issues` table in insertion order. -/
structure QState where
  dbFile : Option (List Row)
deriving DecidableEq, Repr

/-- `load_issues`: open the local database and run
`SELECT title, summary, company, union_opt FROM issues`; a missing
database file makes the query raise, uncaught. -/
def load_issues (q : QState) : Except Unit (List Row) :=
  match q.dbFile with
  | none => Except.error ()
  | some rows => Except.ok rows

/-- The `match` predicate inside `get_filtered_issues`, applied to the
already-stripped keyword `kw`: reject when `kw` is non-empty and not a
substring of the title, then apply the tab condition
(`bool(field and field.strip())`). -/
def row_match (kw : Str) (tab : Str) (r : Row) : Bool :=
  if !kw.isEmpty && !(pyIn kw r.title) then false
  else if tab = tabCompany then !r.company.isEmpty && !(pyStrip r.company).isEmpty
  else if tab = tabUnion then !r.union_opt.isEmpty && !(pyStrip r.union_opt).isEmpty
  else true

/-- The pure part of `get_filtered_issues`: strip the keyword and keep the
rows accepted by `match`. -/
def get_filtered_core (rows : List Row) (keyword : Str) (tab : Str) : List Row :=
  rows.filter (row_match (pyStrip keyword) tab)

/-- `get_filtered_issues(keyword, tab)`: load all issues and filter them;
the load's exception propagates (no handler). -/
def get_filtered_issues (q : QState) (keyword : Str) (tab : Str) : Except Unit (List Row) :=
  (load_issues q).map (fun rows => get_filtered_core rows keyword tab)

/-- The query in `DetailScreen.set_detail`:
`SELECT summary, company, union_opt FROM issues WHERE title=?` followed by
`fetchone()` — the first row in table order whose title equals the argument,
or nothing. -/
def fetch_by_title (rows : List Row) (t : Str) : Option (Str × Str × Str) :=
  match rows.find? (fun r => r.title == t) with
  | none => none
  | some r => some (r.summary, r.company, r.union_opt)

/-- The update sequence reaches the call to `download_db`: the local read
and the manifest fetch succeed, both fields are present, and the remote
version is strictly greater. -/
def downloadAttempted (w : World) : Prop :=
  ∃ lv rv u, get_local_version w = Except.ok lv ∧
    w.fetchResult = Fetch.ok ⟨some rv, some u⟩ ∧ lv < rv

/-- Dropping leading whitespace removes a whitespace-only block from the
front of the list. -/
theorem dropLeadWS_eq_append (l : Str) :
    ∃ p, (∀ c ∈ p, isWS c = true) ∧ l = p ++ dropLeadWS l := by
  induction l with
  | nil => exact ⟨[], by simp, rfl⟩
  | cons c t ih =>
    by_cases hc : isWS c = true
    · obtain ⟨p, hp, ht⟩ := ih
      refine ⟨c :: p, ?_, ?_⟩
      · intro x hx
        rcases List.mem_cons.mp hx with h1 | h1
        · exact h1 ▸ hc
        · exact hp x h1
      · simp [dropLeadWS, hc]
        exact ht
    · exact ⟨[], by simp, by simp [dropLeadWS, hc]⟩

/-- The result of dropping leading whitespace is empty or starts with a
non-whitespace character. -/
theorem dropLeadWS_head (l : Str) :
    dropLeadWS l = [] ∨ ∃ c t, dropLeadWS l = c :: t ∧ isWS c = false := by
  induction l with
  | nil => exact Or.inl rfl
  | cons c t ih =>
    by_cases hc : isWS c = true
    · simpa [dropLeadWS, hc] using ih
    · exact Or.inr ⟨c, t, by simp [dropLeadWS, hc], by simpa using hc⟩

/-- A list with no leading whitespace is unchanged by `dropLeadWS`. -/
theorem dropLeadWS_of_head_not_ws (c : Char) (t : Str) (hc : isWS c = false) :
    dropLeadWS (c :: t) = c :: t := by
  simp [dropLeadWS, hc]

/-- Dropping leading whitespace is idempotent. -/
theorem dropLeadWS_idem (l : Str) :
    dropLeadWS (dropLeadWS l) = dropLeadWS l := by
  rcases dropLeadWS_head l with h | ⟨c, t, h, hc⟩
  · rw [h]; rfl
  · rw [h]; exact dropLeadWS_of_head_not_ws c t hc

/-- A stripped string has no leading whitespace. -/
theorem dropLeadWS_pyStrip (s : Str) :
    dropLeadWS (pyStrip s) = pyStrip s := by
  unfold pyStrip
  obtain ⟨p, hp, hsplit⟩ := dropLeadWS_eq_append (dropLeadWS s).reverse
  rcases hres : (dropLeadWS (dropLeadWS s).reverse).reverse with _ | ⟨c, t⟩
  · rfl
  · apply dropLeadWS_of_head_not_ws
    have hhead : dropLeadWS s = c :: (t ++ p.reverse) := by
      have h1 : dropLeadWS s = ((dropLeadWS s).reverse).reverse := by
        rw [List.reverse_reverse]
      rw [h1, hsplit, List.reverse_append]
      have h2 : (dropLeadWS (dropLeadWS s).reverse).reverse = c :: t := hres
      rw [h2]
      rfl
    rcases dropLeadWS_head s with h | ⟨c2, t2, h, hc2⟩
    · rw [h] at hhead; exact absurd hhead (by simp)
    · rw [h] at hhead
      have : c2 = c := (List.cons.injEq _ _ _ _ ▸ hhead).1
      exact this ▸ hc2

/-- Python's `strip` is idempotent. -/
theorem pyStrip_idem (s : Str) : pyStrip (pyStrip s) = pyStrip s := by
  have h1 : pyStrip (pyStrip s) =
      (dropLeadWS (dropLeadWS (pyStrip s)).reverse).reverse := rfl
  rw [h1, dropLeadWS_pyStrip]
  show (dropLeadWS ((dropLeadWS (dropLeadWS s).reverse).reverse).reverse).reverse = _
  rw [List.reverse_reverse, dropLeadWS_idem]
  rfl

/-- Dropping leading whitespace from an all-whitespace list gives the
empty list. -/
theorem dropLeadWS_all_ws (l : Str) (h : ∀ c ∈ l, isWS c = true) :
    dropLeadWS l = [] := by
  induction l with
  | nil => rfl
  | cons c t ih =>
    have hc : isWS c = true := h c (List.mem_cons_self c t)
    simp [dropLeadWS, hc]
    exact ih fun x hx => h x (List.mem_cons_of_mem c hx)

/-- Stripping an all-whitespace string gives the empty string. -/
theorem pyStrip_all_ws (s : Str) (h : ∀ c ∈ s, isWS c = true) :
    pyStrip s = [] := by
  unfold pyStrip
  rw [dropLeadWS_all_ws s h]
  rfl

/-- Stripping the empty string gives the empty string. -/
theorem pyStrip_nil : pyStrip [] = [] := rfl

/-- A string with a non-empty strip is itself non-empty. -/
theorem ne_nil_of_pyStrip_ne_nil (s : Str) (h : pyStrip s ≠ []) : s ≠ [] := by
  intro hs
  exact h (hs ▸ pyStrip_nil)

/-- The keyword guard of `match` lets a row through iff the keyword is
empty or occurs in the title. -/
theorem kw_guard_iff (kw title : Str) :
    (!kw.isEmpty && !(pyIn kw title)) = false ↔ (kw = [] ∨ pyIn kw title = true) := by
  cases hkE : kw.isEmpty <;> cases hkP : pyIn kw title <;>
    simp_all [List.isEmpty_iff]

/-- The truthiness test `bool(field and field.strip())` holds iff the field
is non-empty after stripping. -/
theorem field_guard_iff (f : Str) :
    (!f.isEmpty && !(pyStrip f).isEmpty) = true ↔ pyStrip f ≠ [] := by
  constructor
  · intro h
    simp [List.isEmpty_iff] at h
    exact h.2
  · intro h
    simp [List.isEmpty_iff]
    exact ⟨ne_nil_of_pyStrip_ne_nil f h, h⟩

/-- Characterisation of the `match` predicate on the three tabs, for an
already-stripped keyword. -/
theorem row_match_iff (kw t : Str) (r : Row)
    (ht : t = tabAll ∨ t = tabCompany ∨ t = tabUnion) :
    row_match kw t r = true ↔
      (kw = [] ∨ pyIn kw r.title = true) ∧
      (t = tabAll ∨ (t = tabCompany ∧ pyStrip r.company ≠ []) ∨
        (t = tabUnion ∧ pyStrip r.union_opt ≠ [])) := by
  cases hg : (!kw.isEmpty && !(pyIn kw r.title)) with
  | true =>
    have hLHS : row_match kw t r = false := by
      unfold row_match
      rw [if_pos hg]
    rw [hLHS]
    constructor
    · intro hF
      exact absurd hF (by simp)
    · intro hR
      have hcontra := (kw_guard_iff kw r.title).mpr hR.1
      rw [hg] at hcontra
      exact absurd hcontra (by simp)
  | false =>
    have hkw := (kw_guard_iff kw r.title).mp hg
    have hneg : ¬ ((!kw.isEmpty && !(pyIn kw r.title)) = true) := by
      rw [hg]
      simp
    rcases ht with h | h | h <;> subst h
    · have hLHS : row_match kw tabAll r = true := by
        unfold row_match
        rw [if_neg hneg, if_neg (show ¬ (tabAll = tabCompany) by decide),
          if_neg (show ¬ (tabAll = tabUnion) by decide)]
      rw [hLHS]
      constructor
      · intro _
        exact ⟨hkw, Or.inl rfl⟩
      · intro _
        rfl
    · have hLHS : row_match kw tabCompany r =
          (!r.company.isEmpty && !(pyStrip r.company).isEmpty) := by
        unfold row_match
        rw [if_neg hneg, if_pos (show tabCompany = tabCompany from rfl)]
      rw [hLHS, field_guard_iff]
      constructor
      · intro h
        exact ⟨hkw, Or.inr (Or.inl ⟨rfl, h⟩)⟩
      · intro h
        rcases h.2 with h2 | h2 | h2
        · exact absurd h2 (by decide)
        · exact h2.2
        · exact absurd h2.1 (by decide)
    · have hLHS : row_match kw tabUnion r =
          (!r.union_opt.isEmpty && !(pyStrip r.union_opt).isEmpty) := by
        unfold row_match
        rw [if_neg hneg, if_neg (show ¬ (tabUnion = tabCompany) by decide),
          if_pos (show tabUnion = tabUnion from rfl)]
      rw [hLHS, field_guard_iff]
      constructor
      · intro h
        exact ⟨hkw, Or.inr (Or.inr ⟨rfl, h⟩)⟩
      · intro h
        rcases h.2 with h2 | h2 | h2
        · exact absurd h2 (by decide)
        · exact absurd h2.1 (by decide)
        · exact h2.2

/-- The detail query yields nothing exactly when no row has the queried
title. -/
theorem fetch_by_title_none_iff (rows : List Row) (t : Str) :
    fetch_by_title rows t = none ↔ ∀ r ∈ rows, r.title ≠ t := by
  have key : fetch_by_title rows t = none ↔
      rows.find? (fun r => r.title == t) = none := by
    unfold fetch_by_title
    rcases hf : rows.find? (fun r => r.title == t) with _ | r0 <;> rw [hf] <;> simp
  rw [key, List.find?_eq_none]
  constructor
  · intro h r hr
    simpa using h r hr
  · intro h r hr
    simpa using h r hr

/-- A successful detail query returns the projection of the first row in
table order whose title equals the argument. -/
theorem fetch_by_title_some_first (rows : List Row) (t s c u : Str)
    (h : fetch_by_title rows t = some (s, c, u)) :
    ∃ p sfx r, rows = p ++ r :: sfx ∧ r.title = t ∧ r.summary = s ∧
      r.company = c ∧ r.union_opt = u ∧ ∀ x ∈ p, x.title ≠ t := by
  induction rows with
  | nil => exact absurd h (by simp [fetch_by_title])
  | cons hd tl ih =>
    by_cases hh : hd.title = t
    · have hstep : fetch_by_title (hd :: tl) t =
          some (hd.summary, hd.company, hd.union_opt) := by
        unfold fetch_by_title
        rw [List.find?_cons_of_pos _ (by simpa using hh)]
      rw [hstep] at h
      simp only [Option.some.injEq, Prod.mk.injEq] at h
      exact ⟨[], tl, hd, rfl, hh, h.1, h.2.1, h.2.2, by simp⟩
    · have hstep : fetch_by_title (hd :: tl) t = fetch_by_title tl t := by
        unfold fetch_by_title
        rw [List.find?_cons_of_neg _ (by simpa using hh)]
      rw [hstep] at h
      obtain ⟨p, sfx, r, hsplit, h1, h2, h3, h4, hp⟩ := ih h
      refine ⟨hd :: p, sfx, r, by rw [hsplit]; rfl, h1, h2, h3, h4, ?_⟩
      intro x hx
      rcases List.mem_cons.mp hx with hx1 | hx1
      · exact hx1 ▸ hh
      · exact hp x hx1

/-- A state in which an update is available and every step succeeds. -/
def exWorldUpdate : World :=
  ⟨some (VFile.obj (some 1)), some [0], Fetch.ok ⟨some 2, some ['u']⟩,
    DLResult.stream [[7]] true, false⟩

/-- A state in which the remote version does not exceed the local one. -/
def exWorldLatest : World :=
  ⟨some (VFile.obj (some 1)), some [0], Fetch.ok ⟨some 1, some ['u']⟩,
    DLResult.stream [[7]] true, false⟩

/-- A state in which the manifest fetch fails. -/
def exWorldNetFail : World :=
  ⟨some (VFile.obj (some 1)), some [1, 2, 3], Fetch.fail, DLResult.failEarly, false⟩

/-- A state in which the database download raises after one chunk was
already written over the local database file. -/
def exWorldMidStream : World :=
  ⟨some (VFile.obj (some 0)), some [1, 2, 3], Fetch.ok ⟨some 1, some ['u']⟩,
    DLResult.stream [[9]] false, false⟩

/-- A state whose local version file holds text that `json.load` rejects. -/
def exWorldBadVFile : World :=
  ⟨some VFile.invalid, some [0], Fetch.fail, DLResult.failEarly, false⟩

/-- C1: for all local version `v_local` and remote version `v_remote`, when
every step of the update sequence succeeds: if `v_remote > v_local` then
`update_db_if_needed` returns `"updated"` and the local version file
afterward holds `v_remote`; otherwise it returns `"latest"` and the local
version file is unchanged. -/
theorem spec_c1_update_success (w : World) (lv rv : Int) (u : Str)
    (chunks : List Bytes)
    (hl : get_local_version w = Except.ok lv)
    (hf : w.fetchResult = Fetch.ok ⟨some rv, some u⟩)
    (hd : w.dlResult = DLResult.stream chunks true)
    (hw : w.writeFail = false) :
    (rv > lv → (update_db_if_needed w).fst = "updated" ∧
      (update_db_if_needed w).snd.versionFile = some (VFile.obj (some rv))) ∧
    (rv ≤ lv → (update_db_if_needed w).fst = "latest" ∧
      (update_db_if_needed w).snd.versionFile = w.versionFile) := by
  have hr : get_remote_info w = Except.ok ⟨some rv, some u⟩ := by
    unfold get_remote_info
    rw [hf]
  have hdl : download_db w = (setDB w (some chunks.flatten), true) := by
    unfold download_db
    rw [hd]
  have hstep : update_db_if_needed w =
      if rv > lv then
        ("updated", setVF (setDB w (some chunks.flatten)) (some (VFile.obj (some rv))))
      else ("latest", w) := by
    unfold update_db_if_needed
    rw [hl, hr, hdl, hw]
    rfl
  constructor
  · intro hlt
    rw [hstep, if_pos hlt]
    exact ⟨rfl, rfl⟩
  · intro hle
    rw [hstep, if_neg (not_lt.mpr hle)]
    exact ⟨rfl, rfl⟩

theorem spec_c1_update_success_witness :
    ((update_db_if_needed exWorldUpdate).fst = "updated" ∧
      (update_db_if_needed exWorldUpdate).snd.versionFile =
        some (VFile.obj (some 2))) ∧
    ((update_db_if_needed exWorldLatest).fst = "latest" ∧
      (update_db_if_needed exWorldLatest).snd.versionFile =
        exWorldLatest.versionFile) :=
  ⟨(spec_c1_update_success exWorldUpdate 1 2 ['u'] [[7]] rfl rfl rfl rfl).1
      (by decide),
    (spec_c1_update_success exWorldLatest 1 1 ['u'] [[7]] rfl rfl rfl rfl).2
      (by decide)⟩

/-- C3: `update_db_if_needed` returns exactly one of `"updated"`,
`"latest"`, `"error"`; in the embedding every raise inside the `try` block
is an `Except.error` branch, each of which the blanket handler maps to the
returned string `"error"`, so the function is total. -/
theorem spec_c3_status_total (w : World) :
    (update_db_if_needed w).fst = "updated" ∨
      (update_db_if_needed w).fst = "latest" ∨
      (update_db_if_needed w).fst = "error" := by
  rcases hl : get_local_version w with e | lv
  · rw [show update_db_if_needed w = ("error", w) by
      unfold update_db_if_needed
      rw [hl]]
    exact Or.inr (Or.inr rfl)
  · rcases hr : get_remote_info w with e | ⟨mv, mu⟩
    · rw [show update_db_if_needed w = ("error", w) by
        unfold update_db_if_needed
        rw [hl, hr]]
      exact Or.inr (Or.inr rfl)
    · rcases mv with _ | rv
      · rw [show update_db_if_needed w = ("error", w) by
          unfold update_db_if_needed
          rw [hl, hr]]
        exact Or.inr (Or.inr rfl)
      · rcases mu with _ | u
        · rw [show update_db_if_needed w = ("error", w) by
            unfold update_db_if_needed
            rw [hl, hr]]
          exact Or.inr (Or.inr rfl)
        · rcases hdl : download_db w with ⟨w2, ok⟩
          rcases hwf : w.writeFail with _ | _ <;> rcases ok with _ | _
          · have hstep : update_db_if_needed w =
                if rv > lv then ("error", w2) else ("latest", w) := by
              unfold update_db_if_needed
              rw [hl, hr, hdl, hwf]
            by_cases hlt : rv > lv
            · rw [hstep, if_pos hlt]
              exact Or.inr (Or.inr rfl)
            · rw [hstep, if_neg hlt]
              exact Or.inr (Or.inl rfl)
          · have hstep : update_db_if_needed w =
                if rv > lv then ("updated", setVF w2 (some (VFile.obj (some rv))))
                else ("latest", w) := by
              unfold update_db_if_needed
              rw [hl, hr, hdl, hwf]
              rfl
            by_cases hlt : rv > lv
            · rw [hstep, if_pos hlt]
              exact Or.inl rfl
            · rw [hstep, if_neg hlt]
              exact Or.inr (Or.inl rfl)
          · have hstep : update_db_if_needed w =
                if rv > lv then ("error", w2) else ("latest", w) := by
              unfold update_db_if_needed
              rw [hl, hr, hdl, hwf]
            by_cases hlt : rv > lv
            · rw [hstep, if_pos hlt]
              exact Or.inr (Or.inr rfl)
            · rw [hstep, if_neg hlt]
              exact Or.inr (Or.inl rfl)
          · have hstep : update_db_if_needed w =
                if rv > lv then ("error", setVF w2 (some VFile.invalid))
                else ("latest", w) := by
              unfold update_db_if_needed
              rw [hl, hr, hdl, hwf]
              rfl
            by_cases hlt : rv > lv
            · rw [hstep, if_pos hlt]
              exact Or.inr (Or.inr rfl)
            · rw [hstep, if_neg hlt]
              exact Or.inr (Or.inl rfl)

/-- C2 counterexample: a network failure in the middle of the database
download (after the local file was opened for writing) still yields
`"error"`, but the local database file has been overwritten with the
partial download, so the state is not unchanged. -/
theorem spec_c2_error_counterexample :
    (update_db_if_needed exWorldMidStream).fst = "error" ∧
    (update_db_if_needed exWorldMidStream).snd.dbFile ≠ exWorldMidStream.dbFile :=
  ⟨rfl, by decide⟩

/-- C2 amended: if a network failure occurs during the version fetch, or at
the start of the database download before any data is written to the local
file, `update_db_if_needed` returns `"error"` and neither the local version
file nor the local database file is modified.  (A failure in the middle of
the download still returns `"error"` but leaves a partially written
database file, as the counterexample shows.) -/
theorem spec_c2_error_amended (w : World)
    (hfail : w.fetchResult = Fetch.fail ∨
      (downloadAttempted w ∧ w.dlResult = DLResult.failEarly)) :
    update_db_if_needed w = ("error", w) := by
  rcases hfail with hfetch | ⟨⟨lv, rv, u, hl, hf, hlt⟩, hdl⟩
  · rcases hl : get_local_version w with e | lv
    · unfold update_db_if_needed
      rw [hl]
    · have hr : get_remote_info w = Except.error () := by
        unfold get_remote_info
        rw [hfetch]
      unfold update_db_if_needed
      rw [hl, hr]
  · have hr : get_remote_info w = Except.ok ⟨some rv, some u⟩ := by
      unfold get_remote_info
      rw [hf]
    have hdla : download_db w = (w, false) := by
      unfold download_db
      rw [hdl]
    have hstep : update_db_if_needed w =
        if rv > lv then ("error", w) else ("latest", w) := by
      unfold update_db_if_needed
      rw [hl, hr, hdla]
    rw [hstep, if_pos hlt]

theorem spec_c2_error_amended_witness :
    update_db_if_needed exWorldNetFail = ("error", exWorldNetFail) :=
  spec_c2_error_amended exWorldNetFail (Or.inl rfl)

/-- A state with no local version file at all. -/
def exWorldNoVFile : World := ⟨none, none, Fetch.fail, DLResult.failEarly, false⟩

/-- A state whose local version file is a JSON object without a
`"version"` key. -/
def exWorldEmptyObj : World :=
  ⟨some (VFile.obj none), none, Fetch.fail, DLResult.failEarly, false⟩

/-- A state whose local version file stores version 3. -/
def exWorldV3 : World :=
  ⟨some (VFile.obj (some 3)), none, Fetch.fail, DLResult.failEarly, false⟩

/-- C6 counterexample: on a local version file that is not valid JSON,
`get_local_version` raises (the exception from `json.load` propagates)
instead of returning 0. -/
theorem spec_c6_local_version_counterexample :
    get_local_version exWorldBadVFile = Except.error () ∧
    get_local_version exWorldBadVFile ≠ Except.ok 0 :=
  ⟨rfl, fun h => Except.noConfusion h⟩

/-- C6 amended: reading the local version returns 0 when the file is
absent, or when its JSON object lacks a `"version"` key; it returns the
stored integer otherwise.  A file that is not valid JSON makes
`get_local_version` raise (the error propagates to its caller; only
`update_db_if_needed`'s blanket handler catches it). -/
theorem spec_c6_local_version_amended (w : World) :
    (w.versionFile = none → get_local_version w = Except.ok 0) ∧
    (w.versionFile = some (VFile.obj none) → get_local_version w = Except.ok 0) ∧
    (∀ v : Int, w.versionFile = some (VFile.obj (some v)) →
      get_local_version w = Except.ok v) ∧
    (w.versionFile = some VFile.invalid → get_local_version w = Except.error ()) := by
  refine ⟨?_, ?_, ?_, ?_⟩
  · intro h
    unfold get_local_version
    rw [h]
  · intro h
    unfold get_local_version
    rw [h]
  · intro v h
    unfold get_local_version
    rw [h]
  · intro h
    unfold get_local_version
    rw [h]

theorem spec_c6_local_version_amended_witness :
    get_local_version exWorldNoVFile = Except.ok 0 ∧
    get_local_version exWorldEmptyObj = Except.ok 0 ∧
    get_local_version exWorldV3 = Except.ok 3 ∧
    get_local_version exWorldBadVFile = Except.error () :=
  ⟨(spec_c6_local_version_amended exWorldNoVFile).1 rfl,
    (spec_c6_local_version_amended exWorldEmptyObj).2.1 rfl,
    (spec_c6_local_version_amended exWorldV3).2.2.1 3 rfl,
    (spec_c6_local_version_amended exWorldBadVFile).2.2.2 rfl⟩

/-- The row ("T", "S", "", "U"): empty company field. -/
def exRowNoCompany : Row := ⟨['T'], ['S'], [], ['U']⟩

/-- The row ("T", "S", " 응 ", "U"): whitespace-padded company field. -/
def exRowWSCompany : Row := ⟨['T'], ['S'], [' ', '응', ' '], ['U']⟩

/-- A loaded table with the two example rows. -/
def exQ : QState := ⟨some [exRowNoCompany, exRowWSCompany]⟩

/-- C4 counterexample: with keyword " " (a single space, non-empty and not
a substring of the title "T") and tab "전체", the filter still keeps the
row, because the code strips the keyword before matching; the claim as
stated would exclude it. -/
theorem spec_c4_filter_counterexample :
    get_filtered_core [exRowNoCompany] [' '] tabAll = [exRowNoCompany] ∧
    ([' '] : Str) ≠ [] ∧ pyIn [' '] exRowNoCompany.title = false := by
  decide

/-- C4 amended: for every row, keyword `k` and tab `t` among "전체",
"회사안", "조합안", the filter keeps the row iff (the stripped keyword is
empty OR the stripped keyword is a substring of the title) AND (tab "전체":
always; tab "회사안": the company field is non-empty after trimming; tab
"조합안": the union field is non-empty after trimming); the keyword is
stripped of leading and trailing whitespace before matching. -/
theorem spec_c4_filter_amended (rows : List Row) (k t : Str) (r : Row)
    (ht : t = tabAll ∨ t = tabCompany ∨ t = tabUnion) :
    r ∈ get_filtered_core rows k t ↔
      r ∈ rows ∧
      ((pyStrip k = [] ∨ pyIn (pyStrip k) r.title = true) ∧
        (t = tabAll ∨ (t = tabCompany ∧ pyStrip r.company ≠ []) ∨
          (t = tabUnion ∧ pyStrip r.union_opt ≠ []))) := by
  unfold get_filtered_core
  rw [List.mem_filter, row_match_iff (pyStrip k) t r ht]

theorem spec_c4_filter_amended_witness :
    (tabCompany = tabAll ∨ tabCompany = tabCompany ∨ tabCompany = tabUnion) ∧
    (exRowWSCompany ∈ get_filtered_core [exRowNoCompany, exRowWSCompany] [] tabCompany ↔
      exRowWSCompany ∈ [exRowNoCompany, exRowWSCompany] ∧
      ((pyStrip [] = [] ∨ pyIn (pyStrip []) exRowWSCompany.title = true) ∧
        (tabCompany = tabAll ∨ (tabCompany = tabCompany ∧ pyStrip exRowWSCompany.company ≠ []) ∨
          (tabCompany = tabUnion ∧ pyStrip exRowWSCompany.union_opt ≠ [])))) ∧
    (exRowNoCompany ∈ get_filtered_core [exRowNoCompany, exRowWSCompany] [] tabCompany ↔
      exRowNoCompany ∈ [exRowNoCompany, exRowWSCompany] ∧
      ((pyStrip [] = [] ∨ pyIn (pyStrip []) exRowNoCompany.title = true) ∧
        (tabCompany = tabAll ∨ (tabCompany = tabCompany ∧ pyStrip exRowNoCompany.company ≠ []) ∨
          (tabCompany = tabUnion ∧ pyStrip exRowNoCompany.union_opt ≠ [])))) :=
  ⟨Or.inr (Or.inl rfl),
    spec_c4_filter_amended [exRowNoCompany, exRowWSCompany] [] tabCompany
      exRowWSCompany (Or.inr (Or.inl rfl)),
    spec_c4_filter_amended [exRowNoCompany, exRowWSCompany] [] tabCompany
      exRowNoCompany (Or.inr (Or.inl rfl))⟩

/-- C5: with keyword "" and tab "전체", the filter is the identity on the
loaded row list: every row is returned unchanged and in the same order. -/
theorem spec_c5_filter_identity (rows : List Row) :
    get_filtered_issues ⟨some rows⟩ [] tabAll = Except.ok rows := by
  have hall : ∀ r ∈ rows, row_match (pyStrip []) tabAll r = true := by
    intro r _
    rw [row_match_iff _ _ _ (Or.inl rfl)]
    exact ⟨Or.inl rfl, Or.inl rfl⟩
  show Except.ok (get_filtered_core rows [] tabAll) = Except.ok rows
  unfold get_filtered_core
  rw [List.filter_eq_self.mpr hall]

/-- C7: the detail query returns the first row whose title exactly equals
the queried title, and nothing when no row in the table has that title. -/
theorem spec_c7_fetch_by_title (rows : List Row) (t : Str) :
    (fetch_by_title rows t = none ↔ ∀ r ∈ rows, r.title ≠ t) ∧
    (∀ s c u, fetch_by_title rows t = some (s, c, u) →
      ∃ p sfx r, rows = p ++ r :: sfx ∧ r.title = t ∧ r.summary = s ∧
        r.company = c ∧ r.union_opt = u ∧ ∀ x ∈ p, x.title ≠ t) :=
  ⟨fetch_by_title_none_iff rows t,
    fun s c u h => fetch_by_title_some_first rows t s c u h⟩

/-- A row titled "A". -/
def exRowA : Row := ⟨['A'], ['s'], ['c'], ['u']⟩

/-- A row titled "B". -/
def exRowB : Row := ⟨['B'], ['t'], ['d'], ['v']⟩

theorem spec_c7_fetch_by_title_witness :
    (∀ r ∈ [exRowA, exRowB], r.title ≠ ['Z']) ∧
    (∃ p sfx r, [exRowA, exRowB] = p ++ r :: sfx ∧ r.title = ['B'] ∧
      r.summary = ['t'] ∧ r.company = ['d'] ∧ r.union_opt = ['v'] ∧
      ∀ x ∈ p, x.title ≠ ['B']) :=
  ⟨(spec_c7_fetch_by_title [exRowA, exRowB] ['Z']).1.mp (by decide),
    (spec_c7_fetch_by_title [exRowA, exRowB] ['B']).2 ['t'] ['d'] ['v'] (by decide)⟩

/-- C8: when the local database file is missing at query time, listing
issues raises, and the exception propagates through `get_filtered_issues`
unguarded: no fallback result is produced for any keyword or tab. -/
theorem spec_c8_missing_db (k t : Str) :
    load_issues ⟨none⟩ = Except.error () ∧
    get_filtered_issues ⟨none⟩ k t = Except.error () :=
  ⟨rfl, rfl⟩

/-- C9: the filter strips the keyword before matching, so filtering with
`k` equals filtering with `k` stripped of leading and trailing whitespace;
a whitespace-only keyword behaves exactly like the empty keyword. -/
theorem spec_c9_keyword_strip (q : QState) (k t : Str) :
    get_filtered_issues q k t = get_filtered_issues q (pyStrip k) t ∧
    ((∀ c ∈ k, isWS c = true) →
      get_filtered_issues q k t = get_filtered_issues q [] t) := by
  constructor
  · unfold get_filtered_issues get_filtered_core
    rw [pyStrip_idem]
  · intro hws
    unfold get_filtered_issues get_filtered_core
    rw [pyStrip_all_ws k hws]
    rfl

theorem spec_c9_keyword_strip_witness :
    (get_filtered_issues exQ [' ', 'T'] tabAll =
      get_filtered_issues exQ (pyStrip [' ', 'T']) tabAll) ∧
    (get_filtered_issues exQ [' '] tabAll = get_filtered_issues exQ [] tabAll) :=
  ⟨(spec_c9_keyword_strip exQ [' ', 'T'] tabAll).1,
    (spec_c9_keyword_strip exQ [' '] tabAll).2 (by decide)⟩

/-- C10: for every keyword and tab, the filter's output is a subsequence
of the loaded row list: each returned row appears verbatim in the input,
none is duplicated or modified, and the relative order is preserved. -/
theorem spec_c10_filter_sublist (rows : List Row) (k t : Str) :
    List.Sublist (get_filtered_core rows k t) rows := by
  unfold get_filtered_core
  exact List.filter_sublist rows
